import Mathlib

/-!
Verification of the ConfigUpdater specification against its source code.

This file gives a shallow embedding of the configupdater package
(`src/configupdater/{block,container,option,section,document,parser}.py`):
its data model (blocks, options, sections, documents), the line-oriented
parsing state machine (`Parser._read`), rendering (`__str__` methods) and
the ownership bookkeeping (`attach`/`detach`/`_adopt_or_copy`).

Strings are modelled as lists of characters (`Line`), so that rendering and
parsing are plain executable functions on lists.  Python string primitives
(`strip`, `rstrip`, `lower`, splitting a stream into lines) are modelled on
the ASCII whitespace set `" \t\n\r\x0b\x0c"` used by Python for ASCII text.
The parser is modelled at its default configuration shape: delimiters and
comment prefixes are single characters (the defaults `=`/`:` and `#`/`;`),
and `inline_comment_prefixes` is empty (its default `None`), which makes the
inline-comment scanning loop of `Parser._read` a no-op and it is therefore
omitted.
-/

/-- A Python string, as a list of characters. -/
abbrev Line := List Char

/-- Conversion from Lean string literals to the `Line` model. -/
def strToLine (s : String) : Line := s.data

/-- Python's whitespace predicate for ASCII characters, as used by
`str.strip`/`str.rstrip` and by the `\s` / `\S` character classes of the
parser regular expressions. -/
def pyIsSpace (c : Char) : Bool :=
  c = ' ' || c = '\t' || c = '\n' || c = '\r' || c = '\x0b' || c = '\x0c'

/-- Python `str.lstrip()` (whitespace only). -/
def lstripChars (l : Line) : Line := l.dropWhile pyIsSpace

/-- Python `str.rstrip()` (whitespace only). -/
def rstripChars (l : Line) : Line := ((l.reverse).dropWhile pyIsSpace).reverse

/-- Python `str.strip()`. -/
def stripChars (l : Line) : Line := rstripChars (lstripChars l)

/-- Python `str.lstrip(" ")`: strips space characters only (not tabs), as in
`Parser._merge_option_with_space`. -/
def lstripSpaces (l : Line) : Line := l.dropWhile (fun c => c = ' ')

/-- Python `str.lower()` restricted to ASCII letters (`Document.optionxform`
applies `str.lower`; non-ASCII case folding is not modelled). -/
def pyToLower (c : Char) : Char :=
  if 'A' ≤ c ∧ c ≤ 'Z' then Char.ofNat (c.toNat + 32) else c

/-- Python `str.lower()` on a whole string. -/
def pyLower (l : Line) : Line := l.map pyToLower

/-- `"".join(lines)`. -/
def joinLines (ls : List Line) : Line := ls.flatten

/-- Splitting a string into physical lines the way iterating `io.StringIO`
does: each `'\n'` terminates a line and stays part of it; a final fragment
without `'\n'` forms a last line; the empty string yields no lines. -/
def splitLinesAux : Line → Line → List Line
  | [], acc => if acc.isEmpty then [] else [acc.reverse]
  | c :: rest, acc =>
      if c = '\n' then (acc.reverse ++ ['\n']) :: splitLinesAux rest []
      else splitLinesAux rest (c :: acc)

/-- See `splitLinesAux`. -/
def splitLines (l : Line) : List Line := splitLinesAux l []

/-- Python `str.split(sep)` for a one-character separator: always returns
one more piece than there are separator occurrences (so `"".split` gives
`[""]`). -/
def splitOnChar (sep : Char) : Line → List Line
  | [] => [[]]
  | c :: rest =>
      let r := splitOnChar sep rest
      if c = sep then [] :: r
      else
        match r with
        | h :: t => (c :: h) :: t
        | [] => [[c]]

/-- `sys.maxsize`, the sentinel `Parser._read` stores into `indent_level`
when `empty_lines_in_values` is disabled and a blank line ends a value. -/
def MAXSIZE : Nat := 9223372036854775807

/-- Replace the element at an index, keeping the list unchanged when the
index is out of range (Python `lst[idx] = x`). -/
def setAt {α : Type} (l : List α) (i : Nat) (x : α) : List α := l.set i x

/-- Replace the last element of a list, if any. -/
def setLast {α : Type} (l : List α) (x : α) : List α :=
  setAt l (l.length - 1) x

/-- Apply `f` to the element at index `i` (Python in-place mutation of
`lst[i]`). -/
def modifyNth {α : Type} (f : α → α) : Nat → List α → List α
  | _, [] => []
  | 0, x :: xs => f x :: xs
  | n + 1, x :: xs => x :: modifyNth f n xs

/-- Delete the element at index `i` (Python `del lst[idx]`). -/
def eraseNth {α : Type} : Nat → List α → List α
  | _, [] => []
  | 0, _ :: xs => xs
  | n + 1, x :: xs => x :: eraseNth n xs

/-- Insert an element at index `i` (Python `lst.insert(idx, x)`). -/
def insertAt {α : Type} (x : α) : Nat → List α → List α
  | 0, l => x :: l
  | _ + 1, [] => [x]
  | n + 1, y :: ys => y :: insertAt x n ys

/-! ## Data model (`block.py`, `option.py`, `section.py`, `document.py`) -/

/-- The entries of the `syntax_options` mapping consulted by
`Option.__str__` / `Option._get_delim` (`option.py`).  A plain `Document`
has no `syntax_options` attribute, which is modelled by `Option StxOpts`
being `none` at the use sites. -/
structure StxOpts where
  allowNoValue : Bool
  spaceAroundDelimiters : Bool
deriving DecidableEq

/-- `Option` (`option.py`): a key/value block.  Fields mirror the Python
attributes `_key`, `_values`, `_value_is_none`, `_delimiter`, `_value`,
`_updated`, `_multiline_value_joined`, `_space_around_delimiters` and the
inherited `Block._lines`.  The delimiter is a single character, or `none`
for the `vi=None` case of a valueless option; Python stores the matched
delimiter string. -/
structure OptionB where
  key : Line
  values : List (Option Line)
  valueIsNone : Bool
  delim : Option Char
  valueMemo : Option Line
  updatedFlag : Bool
  multilineJoined : Bool
  spaceDelims : Bool
  lines : List Line
deriving DecidableEq

/-- The child kinds of a `Section`: `Option`, `Comment` or `Space` blocks.
`Comment` and `Space` carry only their raw lines (`Block._lines`); their
`_updated` flag is irrelevant to rendering (`Block.__str__` ignores it) and
stays `False` for every block the parser builds, so it is not stored. -/
inductive SectBlock where
  | opt (o : OptionB)
  | comment (lines : List Line)
  | space (lines : List Line)
deriving DecidableEq

/-- `Section` (`section.py`): `_name`, `_raw_comment`, the inherited
`Block._lines` (the raw header line) and `_updated`, plus the
`Container._structure` child list (called `children` here because
`structure` is a Lean keyword). -/
structure SectionB where
  name : Line
  rawComment : Line
  lines : List Line
  children : List SectBlock
  updatedFlag : Bool
deriving DecidableEq

/-- The child kinds of a `Document`: `Section`, `Comment` or `Space`. -/
inductive DocBlock where
  | sec (s : SectionB)
  | comment (lines : List Line)
  | space (lines : List Line)
deriving DecidableEq

/-- `Document` (`document.py`): the root `Container._structure`, plus the
dynamically looked-up `syntax_options` attribute read by
`getattr(document, "syntax_options", None)` in `option.py` (a plain
`Document`, e.g. one populated by the `Parser`, has none). -/
structure Document where
  blocks : List DocBlock
  stxOpts : Option StxOpts
deriving DecidableEq

/-- `Block.updated` (`block.py`): `self._updated or not self._lines`. -/
def optionUpdated (o : OptionB) : Bool := o.updatedFlag || o.lines.isEmpty

/-- `Block.updated` for a section. -/
def sectionUpdated (s : SectionB) : Bool := s.updatedFlag || s.lines.isEmpty

/-- `"\n".join(self._values)` in `Option._join_multiline_value`.  Python
would raise `TypeError` if a `None` fragment were present in the list at
join time; that situation is not exercised by any theorem below, and a
missing fragment is rendered as the empty string here. -/
def joinOptVals : List (Option Line) → Line
  | [] => []
  | [v] => v.getD []
  | v :: vs => v.getD [] ++ '\n' :: joinOptVals vs

/-- `Option._join_multiline_value` (`option.py` lines 93-97): when the memo
is not yet computed and the value is not `None`, join the fragments with
newlines, right-strip, and cache. -/
def joinMultilineValue (o : OptionB) : OptionB :=
  if !o.multilineJoined && !o.valueIsNone then
    { o with valueMemo := some (rstripChars (joinOptVals o.values)),
             multilineJoined := true }
  else o

/-- The `Option.value` property getter: joins (memoizing) and returns the
cached `_value`.  Returns the possibly-updated object as well, because the
getter mutates the memo in place in Python. -/
def optionValueGet (o : OptionB) : Option Line × OptionB :=
  let o' := joinMultilineValue o
  (o'.valueMemo, o')

/-- `is_multi_line` (`option.py` lines 35-40) for a string value. -/
def isMultiLine (v : Line) : Bool := v.contains '\n'

/-- `Option._set_value` (`option.py` lines 191-195). -/
def setValueRaw (o : OptionB) (v : Line) : OptionB :=
  { o with updatedFlag := true, multilineJoined := true,
           valueMemo := some v, values := [some v] }

/-- `AssignMultilineValueError` (`block.py` lines 56-64), raised by the
`Option.value` setter. -/
inductive AssignErr where
  | multilineValue
deriving DecidableEq

/-- The `Option.value` property setter (`option.py` lines 185-189): rejects
values with an embedded newline, otherwise `_set_value`.  The error is
raised before any mutation, so the failing case returns no new state. -/
def setValueOp (o : OptionB) (v : Line) : Except AssignErr OptionB :=
  if isMultiLine v then .error .multilineValue
  else .ok (setValueRaw o v)

/-- `Option.as_list` (`option.py` lines 197-209), for a one-character
separator (the default separator is `"\n"`).  Returns the possibly-updated
option as well, since reading `self.value` fills the memo. -/
def asList (sep : Char) (o : OptionB) : List Line × OptionB :=
  if o.valueIsNone then ([], o)
  else
    let (v, o') := optionValueGet o
    (((splitOnChar sep (stripChars (v.getD []))).map stripChars), o')

/-! ## Rendering (`__str__` methods) -/

/-- `(os.map f).getD false` for the two `syntax_options` keys consulted by
`Option.__str__`: `opts.get("allow_no_value")` treated as a truth value. -/
def stxAllowsNoValue (os : Option StxOpts) : Bool :=
  (os.map (fun o => o.allowNoValue)).getD false

/-- `opts.get("space_around_delimiters")` treated as a truth value. -/
def stxSpaceDelims (os : Option StxOpts) : Bool :=
  (os.map (fun o => o.spaceAroundDelimiters)).getD false

/-- The text interpolated for `self._delimiter` in the f-strings of
`Option.__str__`; Python renders the string `"None"` when the stored
delimiter is `None`. -/
def delimText : Option Char → Line
  | some c => [c]
  | none => strToLine "None"

/-- `Option.__str__` (`option.py` lines 116-131) together with
`Option._get_delim` (lines 99-109).  The first argument models
`self._document()`: `none` when the option (or its section) is detached,
`some os` when a document is reachable, where `os` is that document's
`syntax_options` attribute (or `none` when absent, as on a plain
`Document`). -/
def optionStr (doc : Option (Option StxOpts)) (o : OptionB) : Line :=
  if !(optionUpdated o) then joinLines o.lines
  else
    let opts : Option StxOpts := doc.getD none
    match o.valueMemo with
    | none =>
        -- `if document is None or opts.get("allow_no_value"): return f"{key}\n"`
        if doc.isNone || stxAllowsNoValue opts then o.key ++ ['\n']
        else []  -- NoneValueDisallowed.warn(...); return ""
    | some v =>
        let space := o.spaceDelims || stxSpaceDelims opts
        let suffix : Line := if v.head? = some '\n' then [] else [' ']
        let d : Line :=
          if space then ' ' :: (delimText o.delim ++ suffix) else delimText o.delim
        o.key ++ d ++ v ++ ['\n']

/-- Whether `Option.__str__` signals the non-fatal `NoneValueDisallowed`
warning (`option.py` lines 43-50 and 124-128): exactly on the degraded
empty-string rendering of a valueless option under a document whose syntax
does not allow valueless options. -/
def optionStrWarns (doc : Option (Option StxOpts)) (o : OptionB) : Bool :=
  optionUpdated o && o.valueMemo.isNone &&
    !(doc.isNone || stxAllowsNoValue (doc.getD none))

/-- `str(entry)` for a section child; comments and spaces use
`Block.__str__`, i.e. their joined raw lines. -/
def sectBlockStr (stx : Option StxOpts) : SectBlock → Line
  | .opt o => optionStr (some stx) o
  | .comment ls => joinLines ls
  | .space ls => joinLines ls

/-- The header part of `Section.__str__` (`section.py` lines 109-115): the
raw header lines when unmodified (plus a fix-up newline when the section
has children and the raw text does not end with one), a synthesized
`[name]raw_comment\n` header when modified. -/
def sectionHdr (s : SectionB) : Line :=
  if !(sectionUpdated s) then
    let t := joinLines s.lines
    if !s.children.isEmpty && !(t.getLast? = some '\n') then t ++ ['\n'] else t
  else '[' :: s.name ++ ']' :: s.rawComment ++ ['\n']

/-- `Section.__str__` (`section.py` lines 109-118): the header followed by
every child in order. -/
def sectionStr (stx : Option StxOpts) (s : SectionB) : Line :=
  sectionHdr s ++ joinLines (s.children.map (sectBlockStr stx))

/-- `str(block)` for a document child. -/
def docBlockStr (stx : Option StxOpts) : DocBlock → Line
  | .sec s => sectionStr stx s
  | .comment ls => joinLines ls
  | .space ls => joinLines ls

/-- `Document.__str__` (`document.py` lines 129-130):
`"".join(str(block) for block in self._structure)`. -/
def docStr (d : Document) : Line :=
  joinLines (d.blocks.map (docBlockStr d.stxOpts))

/-! ## Key normalization and lookup (`document.py`, `option.py`,
`section.py`) -/

/-- `Document.optionxform` (`document.py` lines 72-87): fixed to
`optionstr.lower()`. -/
def documentOptionxform (l : Line) : Line := pyLower l

/-- The `Option.key` property (`option.py` lines 156-166):
`self.section.document.optionxform(self._key)`, for an option attached
under a `Document` (a detached option raises `NotAttachedError` instead,
which is outside this function's domain). -/
def optionKeyNorm (o : OptionB) : Line := documentOptionxform o.key

/-- First option child matching a normalized key, used by
`Section.__getitem__`. -/
def findOptionByKey (key : Line) : List SectBlock → Option OptionB
  | [] => none
  | .opt o :: rest =>
      if optionKeyNorm o = key then some o else findOptionByKey key rest
  | _ :: rest => findOptionByKey key rest

/-- `Section.__getitem__` (`section.py` lines 134-139): normalizes the
probe key with the document's `optionxform` and compares it against each
option's (normalized) `key`; `none` models the `KeyError`. -/
def sectionGetItem (s : SectionB) (key : Line) : Option OptionB :=
  findOptionByKey (documentOptionxform key) s.children

/-! ## Parser tree-building hooks (`parser.py` lines 318-390) -/

/-- `Option.add_line` (`option.py` lines 86-91): appends the raw line and
`add_value(line.strip())` (which also clears `_value_is_none`). -/
def optionAddLine (o : OptionB) (line : Line) : OptionB :=
  { o with lines := o.lines ++ [line],
           values := o.values ++ [some (stripChars line)],
           valueIsNone := false }

/-- `Block.add_line` dispatched on the runtime kind of a section child;
`Option` overrides it to also record a value fragment. -/
def sbAddLine : SectBlock → Line → SectBlock
  | .opt o, l => .opt (optionAddLine o l)
  | .comment ls, l => .comment (ls ++ [l])
  | .space ls, l => .space (ls ++ [l])

/-- `str(block)` of a section child during parsing: every parser-built
block is unmodified with at least one raw line, so `Block.__str__` /
`Option.__str__` return the joined raw lines.  Used to model
`Block.__eq__`, which `list.index` consults in `container_idx`. -/
def sectBlockRaw : SectBlock → Line
  | .opt o => joinLines o.lines
  | .comment ls => joinLines ls
  | .space ls => joinLines ls

/-- `Block.__eq__` (`block.py` lines 88-92): same class and equal `str`. -/
def sectBlockEqB (a b : SectBlock) : Bool :=
  match a, b with
  | .opt _, .opt _ => sectBlockRaw a = sectBlockRaw b
  | .comment _, .comment _ => sectBlockRaw a = sectBlockRaw b
  | .space _, .space _ => sectBlockRaw a = sectBlockRaw b
  | _, _ => false

/-- `container.structure.index(block)` as used by `Block.container_idx`
(`block.py` line 132): the index of the first child that compares equal to
the probe under `Block.__eq__` — not necessarily the probe itself. -/
def firstEqIdx (children : List SectBlock) (b : SectBlock) : Nat :=
  children.findIdx (fun c => sectBlockEqB c b)

/-- `Section.add_comment` (`section.py` lines 68-83): extend a trailing
comment block or append a new one. -/
def sectionAddComment (s : SectionB) (line : Line) : SectionB :=
  match s.children.getLast? with
  | some (.comment cls) =>
      { s with children := setLast s.children (.comment (cls ++ [line])) }
  | _ => { s with children := s.children ++ [.comment [line]] }

/-- `Section.add_space` (`section.py` lines 85-100). -/
def sectionAddSpace (s : SectionB) (line : Line) : SectionB :=
  match s.children.getLast? with
  | some (.space ls) =>
      { s with children := setLast s.children (.space (ls ++ [line])) }
  | _ => { s with children := s.children ++ [.space [line]] }

/-- `Parser._add_comment` (`parser.py` lines 332-336) together with
`Parser._update_curr_block`: route to the last section if there is one,
else extend/append a document-level comment block. -/
def addComment (d : Document) (line : Line) : Document :=
  match d.blocks.getLast? with
  | some (.sec s) =>
      { d with blocks := setLast d.blocks (.sec (sectionAddComment s line)) }
  | some (.comment cls) =>
      { d with blocks := setLast d.blocks (.comment (cls ++ [line])) }
  | _ => { d with blocks := d.blocks ++ [.comment [line]] }

/-- `Parser._add_space` (`parser.py` lines 386-390). -/
def addSpace (d : Document) (line : Line) : Document :=
  match d.blocks.getLast? with
  | some (.sec s) =>
      { d with blocks := setLast d.blocks (.sec (sectionAddSpace s line)) }
  | some (.space ls) =>
      { d with blocks := setLast d.blocks (.space (ls ++ [line])) }
  | _ => { d with blocks := d.blocks ++ [.space [line]] }

/-- `Parser._add_section` (`parser.py` lines 338-343): a fresh `Section`
holding the raw header line, appended at document level. -/
def addSection (d : Document) (sectname rawCmt line : Line) : Document :=
  { d with blocks := d.blocks ++
      [.sec { name := sectname, rawComment := rawCmt, lines := [line],
              children := [], updatedFlag := false }] }

/-- `Parser._add_option` (`parser.py` lines 345-359): requires the last
document block to be a `Section` (`InconsistentStateError` otherwise,
modelled as `none`).  Mirrors `Option.__init__` with `value=None` and one
raw line, followed by `entry.add_value(optval)`. -/
def addOptionDoc (spaceDelims : Bool) (d : Document)
    (key : Line) (vi : Option Char) (optval : Option Line) (line : Line) :
    Option Document :=
  match d.blocks.getLast? with
  | some (.sec s) =>
      let entry : OptionB :=
        { key := key, values := [optval], valueIsNone := optval.isNone,
          delim := vi, valueMemo := none, updatedFlag := false,
          multilineJoined := false, spaceDelims := spaceDelims,
          lines := [line] }
      let s' : SectionB := { s with children := s.children ++ [.opt entry] }
      some { d with blocks := setLast d.blocks (.sec s') }
  | _ => none

/-- Kind test used by `_add_option_line`'s
`isinstance(last_option, (Option, Space))` check. -/
def isOptOrSpace : SectBlock → Bool
  | .opt _ => true
  | .space _ => true
  | .comment _ => false

/-- `Parser._add_option_line` (`parser.py` lines 361-384) restricted to one
section: append the continuation line to the section's last block.  When
that block is a `Comment` (an unindented comment inside a multi-line
value), the code computes `previous_block` and `detach`es the comment —
both of which locate the comment through `structure.index`, i.e. the first
child that compares *equal* (`Block.__eq__`), not the comment object
itself — then moves the comment's lines into the located predecessor with
`add_line` and finally appends the current line to it.  `none` models the
`InconsistentStateError` raises as well as the `AttributeError` Python hits
when `previous_block` is `None`. -/
def sectAddOptionLine (s : SectionB) (line : Line) : Option SectionB :=
  match s.children.getLast? with
  | none => none
  | some lastC =>
    match lastC with
    | .opt o =>
        some { s with children := setLast s.children (.opt (optionAddLine o line)) }
    | .space ls =>
        some { s with children := setLast s.children (.space (ls ++ [line])) }
    | .comment cls =>
        let idx := firstEqIdx s.children lastC
        if idx = 0 then none
        else
          match s.children.get? (idx - 1) with
          | none => none
          | some prev =>
              -- comment.detach() removes the child at the first matching index
              let children1 := eraseNth idx s.children
              -- move the comment's lines into prev, then add the current line
              let prev1 := cls.foldl sbAddLine prev
              if isOptOrSpace prev1 then
                some { s with children := setAt children1 (idx - 1) (sbAddLine prev1 line) }
              else none

/-- `Parser._add_option_line` at document level: the last document block
must be a `Section`. -/
def addOptionLineDoc (d : Document) (line : Line) : Option Document :=
  match d.blocks.getLast? with
  | some (.sec s) =>
      match sectAddOptionLine s line with
      | some s' => some { d with blocks := setLast d.blocks (.sec s') }
      | none => none
  | _ => none

/-! ## The parser state machine (`parser.py` `Parser._read`) -/

/-- The constructor arguments stored by `Parser.__init__` that `_read` and
rendering consult (`parser.py` lines 151-206), at the default single-
character shape for delimiters and comment prefixes, and with the default
empty `inline_comment_prefixes`. -/
structure ParserCfg where
  allowNoValue : Bool
  delimiters : List Char
  commentMarks : List Char
  strict : Bool
  emptyLinesInValues : Bool
  spaceAroundDelimiters : Bool
deriving DecidableEq

/-- The default `Parser()` configuration. -/
def defaultCfg : ParserCfg :=
  { allowNoValue := false, delimiters := ['=', ':'],
    commentMarks := ['#', ';'], strict := true,
    emptyLinesInValues := true, spaceAroundDelimiters := true }

/-- A `Parser` object: the configuration together with the stored
`optionxform` constructor argument (`self._optionxform_fn`,
`parser.py` line 180). -/
structure ParserObj where
  cfg : ParserCfg
  optionxformFn : Line → Line

/-- `Parser.optionxform` (`parser.py` lines 314-316). -/
def parserOptionxform (p : ParserObj) (l : Line) : Line := p.optionxformFn l

/-- The exceptions `Parser._read` can raise.  `parsingErr` is the
aggregated end-of-input `ParsingError` carrying every recorded
`(lineno, line)` pair; `inconsistent` stands for
`InconsistentStateError` (and for the `AttributeError` of the
comment-merge edge case). -/
inductive ParseErr where
  | duplicateSection (name : Line) (lineno : Nat)
  | duplicateOption (sect key : Line) (lineno : Nat)
  | missingSectionHeader (lineno : Nat) (line : Line)
  | parsingErr (entries : List (Nat × Line))
  | inconsistent
deriving DecidableEq

/-- The loop state of `Parser._read`: the document under construction, the
keys of the `_sections` shadow dict, the `elements_added` set (split into
its section-name and `(section, option)` members), the current section
name (`cursect`/`sectname`, which are `None` together), the current option
name (`optname`), the continuation reference column (`indent_level`) and
the accumulated non-fatal errors (`e`, empty meaning `None`). -/
structure PState where
  doc : Document
  seenSects : List Line
  addedSects : List Line
  addedOpts : List (Line × Line)
  curSect : Option Line
  curOpt : Option Line
  indentLevel : Nat
  errs : List (Nat × Line)
deriving DecidableEq

/-- The state at the top of `Parser._read` for a fresh parse into a plain
`Document`. -/
def initPState : PState :=
  { doc := { blocks := [], stxOpts := none },
    seenSects := [], addedSects := [], addedOpts := [],
    curSect := none, curOpt := none, indentLevel := 0, errs := [] }

/-- The full-line comment test (`parser.py` lines 438-444):
`line.rstrip().startswith(prefix)` for some configured comment prefix
(single-character prefixes). -/
def lineIsComment (cfg : ParserCfg) (line : Line) : Bool :=
  match (rstripChars line).head? with
  | some c => cfg.commentMarks.contains c
  | none => false

/-- `NONSPACECRE.search(line)`: position and character of the first
non-whitespace character. -/
def firstNonSpaceAux : Nat → Line → Option (Nat × Char)
  | _, [] => none
  | i, c :: cs => if pyIsSpace c then firstNonSpaceAux (i + 1) cs else some (i, c)

/-- See `firstNonSpaceAux`. -/
def firstNonSpace (line : Line) : Option (Nat × Char) := firstNonSpaceAux 0 line

/-- Split a string at its *last* `']'`: `SECTCRE`'s greedy
`\[(?P<header>.+)\](?P<raw_comment>.*)` makes the header run up to the
final `']'` of the line.  Returns `(before, after)` without the bracket. -/
def splitAtLastRB : Line → Option (Line × Line)
  | [] => none
  | c :: rest =>
      match splitAtLastRB rest with
      | some (before, after) => some (c :: before, after)
      | none => if c = ']' then some ([], rest) else none

/-- `SECTCRE.match(value)` (`parser.py` lines 118-123, 142): the value must
start with `[` and contain a later `]` with a nonempty header in between;
the header is everything before the last `]`, the raw comment everything
after it.  (`value` is a stripped physical line, so it contains no
newline and the `.`-does-not-match-newline subtlety is vacuous.) -/
def matchSect (value : Line) : Option (Line × Line) :=
  match value with
  | '[' :: rest =>
      match splitAtLastRB rest with
      | some (header, after) =>
          if header.isEmpty then none else some (header, after)
      | none => none
  | _ => none

/-- Split at the first delimiter character occurrence:
`(before, delim, after)`. -/
def findDelimSplit (delims : List Char) : Line → Option (Line × Char × Line)
  | [] => none
  | c :: rest =>
      if delims.contains c then some ([], c, rest)
      else
        match findDelimSplit delims rest with
        | some (b, d, a) => some (c :: b, d, a)
        | none => none

/-- `self._optcre.match(value)` (`OPTCRE` / `OPTCRE_NV`,
`parser.py` lines 124-147): with the lazy `(?P<option>.*?)\s*(delim)\s*`
pattern the matched delimiter is the *first* delimiter occurrence, the
option group is everything before it minus the immediately preceding
whitespace run, and the value group is everything after it minus the
immediately following whitespace run.  Without any delimiter occurrence
`OPTCRE` fails while `OPTCRE_NV` matches the whole (already stripped)
value as a bare key with delimiter and value groups absent. -/
def matchOpt (allowNV : Bool) (delims : List Char) (value : Line) :
    Option (Line × Option (Char × Line)) :=
  match findDelimSplit delims value with
  | some (before, d, after) =>
      some (rstripChars before, some (d, lstripChars after))
  | none => if allowNV then some (rstripChars value, none) else none

/-- Python truthiness of the `optname` loop variable: a non-`None`,
nonempty string. -/
def optTruthy : Option Line → Bool
  | some l => !l.isEmpty
  | none => false

/-- The continuation-line test of `parser.py` line 470:
`cursect is not None and optname and cur_indent_level > indent_level`. -/
def contTest (st : PState) (curIndent : Nat) : Bool :=
  st.curSect.isSome && optTruthy st.curOpt && decide (curIndent > st.indentLevel)

/-- One iteration of the `for lineno, line in enumerate(fp, start=1)` loop
of `Parser._read` (`parser.py` lines 422-532), at the default empty
`inline_comment_prefixes` (the inline-comment scan is a no-op and
`comment_start` is `sys.maxsize`, i.e. `None` after the normalization,
unless a full-line comment sets it to `0`). -/
def stepLine (cfg : ParserCfg) (st : PState) (lineno : Nat) (line : Line) :
    Except ParseErr PState :=
  let isCmt := lineIsComment cfg line
  let st0 := if isCmt then { st with doc := addComment st.doc line } else st
  -- value = line[:comment_start].strip(): the whole stripped line when no
  -- comment was detected (comment_start is None), empty when one was
  let value := if isCmt then ([] : Line) else stripChars line
  if value.isEmpty then
    -- blank semantic content (lines 448-466); the `cursect[optname]`
    -- append touches only the `_sections` shadow dict, and the nested
    -- `_add_option_line` call is dead because it is guarded by
    -- `line.strip()` being nonempty while `comment_start is None` forces
    -- `line.strip() == value == ""`
    if cfg.emptyLinesInValues then
      .ok (if !isCmt then { st0 with doc := addSpace st0.doc line } else st0)
    else
      let st1 := { st0 with indentLevel := MAXSIZE }
      .ok (if !isCmt then { st1 with doc := addSpace st1.doc line } else st1)
  else
    let fns := firstNonSpace line
    let curIndent := match fns with | some p => p.1 | none => 0
    if contTest st0 curIndent then
      -- continuation line (lines 470-472)
      match addOptionLineDoc st0.doc line with
      | some d' => .ok { st0 with doc := d' }
      | none => .error .inconsistent
    else
      let st1 := { st0 with indentLevel := curIndent }
      match matchSect value with
      | some (sectname, rawCmt) =>
          -- section header (lines 477-491)
          if st1.seenSects.contains sectname then
            if cfg.strict && st1.addedSects.contains sectname then
              .error (.duplicateSection sectname lineno)
            else
              .ok { st1 with addedSects := st1.addedSects ++ [sectname],
                             curSect := some sectname, curOpt := none,
                             doc := addSection st1.doc sectname rawCmt line }
          else
            .ok { st1 with seenSects := st1.seenSects ++ [sectname],
                           addedSects := st1.addedSects ++ [sectname],
                           curSect := some sectname, curOpt := none,
                           doc := addSection st1.doc sectname rawCmt line }
      | none =>
        match st1.curSect with
        | none => .error (.missingSectionHeader lineno line)
        | some sectname =>
          match matchOpt cfg.allowNoValue cfg.delimiters value with
          | some (optname0, rest) =>
              -- option line (lines 497-520); an empty option group records
              -- a non-fatal error but the option is still added
              let st2 :=
                if optname0.isEmpty then
                  { st1 with errs := st1.errs ++ [(lineno, line)] }
                else st1
              let optname := rstripChars optname0
              if cfg.strict && st2.addedOpts.contains (sectname, optname) then
                .error (.duplicateOption sectname optname lineno)
              else
                let vi := rest.map (fun p => p.1)
                let optval := rest.map (fun p => stripChars p.2)
                match addOptionDoc cfg.spaceAroundDelimiters st2.doc
                    optname vi optval line with
                | some d' =>
                    .ok { st2 with
                            addedOpts := st2.addedOpts ++ [(sectname, optname)],
                            curOpt := some optname, doc := d' }
                | none => .error .inconsistent
          | none =>
              -- indented comment (lines 522-526) or non-fatal error
              match fns with
              | some pc =>
                  if cfg.commentMarks.contains pc.2 then
                    .ok { st1 with doc := addComment st1.doc line }
                  else .ok { st1 with errs := st1.errs ++ [(lineno, line)] }
              | none => .ok { st1 with errs := st1.errs ++ [(lineno, line)] }

/-- The line loop of `Parser._read`. -/
def parseLinesFrom (cfg : ParserCfg) :
    PState → Nat → List Line → Except ParseErr PState
  | st, _, [] => .ok st
  | st, n, l :: ls =>
      match stepLine cfg st n l with
      | .ok st' => parseLinesFrom cfg st' (n + 1) ls
      | .error e => .error e

/-! ### The `empty_lines_in_values` post-pass
(`Parser._check_values_with_blank_lines` and
`Parser._merge_option_with_space`, `parser.py` lines 549-565) -/

/-- `max(i for i, line in enumerate(space.lines) if line.strip())`: the
last index holding a non-blank line (`none` when there is none; Python's
`max` over an empty generator raises, but the call site guards against
that). -/
def lastNonBlankIdx (ls : List Line) : Option Nat :=
  (List.range ls.length).foldl
    (fun acc i =>
      match ls.get? i with
      | some l => if (stripChars l).isEmpty then acc else some i
      | none => acc)
    none

/-- `Parser._merge_option_with_space`: move the space's lines up to (and
including) its last non-blank line into the option — appending their
`lstrip(" ")`-ed concatenation as one more value fragment, resetting the
join memo flag and extending the option's raw lines. -/
def mergeOptionWithSpace (o : OptionB) (ls : List Line) :
    OptionB × List Line :=
  match lastNonBlankIdx ls with
  | none => (o, ls)
  | some lvi =>
      let valueLines := ls.take (lvi + 1)
      let mergeVals := joinLines (valueLines.map lstripSpaces)
      ({ o with values := o.values ++ [some mergeVals],
                multilineJoined := false,
                lines := o.lines ++ valueLines },
       ls.drop (lvi + 1))

/-- One option of `Parser._check_values_with_blank_lines`: if the block
after the option (located through `next_block`, i.e. `structure.index`
with `Block.__eq__` and hence the first *equal* option) is a `Space` whose
joined lines are not blank, merge. -/
def checkValuesStep (children : List SectBlock) (p : Nat) : List SectBlock :=
  match children.get? p with
  | some (.opt o) =>
      let idx := firstEqIdx children (.opt o)
      match children.get? (idx + 1) with
      | some (.space ls) =>
          if (stripChars (joinLines ls)).isEmpty then children
          else
            let r := mergeOptionWithSpace o ls
            setAt (setAt children p (.opt r.1)) (idx + 1) (.space r.2)
      | _ => children
  | _ => children

/-- `Parser._check_values_with_blank_lines` over one section: visit the
option positions in order. -/
def checkValuesSection (s : SectionB) : SectionB :=
  { s with children :=
      (List.range s.children.length).foldl checkValuesStep s.children }

/-- `Parser._check_values_with_blank_lines` over the whole document. -/
def checkValues (d : Document) : Document :=
  { d with blocks := d.blocks.map (fun b =>
      match b with
      | .sec s => .sec (checkValuesSection s)
      | b => b) }

/-- `Parser.read_string` into a fresh plain `Document` (`parser.py`
lines 303-312 and the tail of `_read`, lines 533-538): run the line loop,
raise the aggregated `ParsingError` if any non-fatal error was recorded,
then run the blank-lines post-pass. -/
def parseString (cfg : ParserCfg) (text : Line) : Except ParseErr Document :=
  match parseLinesFrom cfg initPState 1 (splitLines text) with
  | .error e => .error e
  | .ok st =>
      if !st.errs.isEmpty then .error (.parsingErr st.errs)
      else .ok (if cfg.emptyLinesInValues then checkValues st.doc else st.doc)

/-- Parsing through a `Parser` object.  `_read` never consults the stored
`optionxform` function (the `optname = self.optionxform(optname.rstrip())`
line is commented out in the source to keep the original key case), so
only the configuration is passed on. -/
def parseDoc (p : ParserObj) (text : Line) : Except ParseErr Document :=
  parseString p.cfg text

/-! ## Positional access and the single-option mutation used by the
isolated-mutation property -/

/-- The option stored at document child `i`, section child `j`. -/
def getOptAt (d : Document) (i j : Nat) : Option OptionB :=
  match d.blocks.get? i with
  | some (.sec s) =>
      match s.children.get? j with
      | some (.opt o) => some o
      | _ => none
  | _ => none

/-- Replace the option at document child `i`, section child `j` through
`Option.value = v` / `Option._set_value` (the object is mutated in place
in Python; here the tree is rebuilt around the updated option). -/
def docSetValue (d : Document) (i j : Nat) (v : Line) : Document :=
  { d with blocks := modifyNth (fun b =>
      match b with
      | .sec s =>
          let s' : SectionB :=
            { s with children := modifyNth (fun c =>
                match c with
                | .opt o => .opt (setValueRaw o v)
                | c => c) j s.children }
          .sec s'
      | b => b) i d.blocks }

/-! ## Ownership bookkeeping (`block.py` `attach`/`detach`,
`container.py` `_adopt_or_copy`, `section.py` `__delitem__`,
`document.py` `remove_section`)

Blocks and containers are modelled by identity: every object carries a
numeric id (its Python object identity), a block carries its class tag,
its rendered text `str(block)` (enough to evaluate `Block.__eq__`), its
raw key / section name, and the `_container` back-pointer as the id of the
owning container; a container carries its name and the ordered child-id
list `_structure`. -/

/-- The runtime class of a block in the ownership model. -/
inductive KindTag where
  | optT
  | commentT
  | spaceT
  | sectT
deriving DecidableEq

/-- A `Block` as seen by the ownership machinery. -/
structure WBlock where
  bid : Nat
  kind : KindTag
  text : Line
  label : Line
  containerRef : Option Nat
deriving DecidableEq

/-- A `Container` (a `Section`, or the `Document` root) as seen by the
ownership machinery. -/
structure WCont where
  cid : Nat
  cname : Line
  childIds : List Nat
deriving DecidableEq

/-- The object graph: all blocks and all containers by id. -/
structure OwnWorld where
  blocks : List WBlock
  conts : List WCont
deriving DecidableEq

/-- Look up a block object by id. -/
def findBlock (w : OwnWorld) (bid : Nat) : Option WBlock :=
  w.blocks.find? (fun b => b.bid = bid)

/-- Look up a container object by id. -/
def findCont (w : OwnWorld) (cid : Nat) : Option WCont :=
  w.conts.find? (fun c => c.cid = cid)

/-- The `_container` back-pointer of a block. -/
def wBlockContainer (w : OwnWorld) (bid : Nat) : Option Nat :=
  (findBlock w bid).bind (fun b => b.containerRef)

/-- `Block.has_container` (`block.py` lines 179-181). -/
def wHasContainer (w : OwnWorld) (bid : Nat) : Bool :=
  (wBlockContainer w bid).isSome

/-- The `_structure` child-id list of a container. -/
def wChildIds (w : OwnWorld) (cid : Nat) : List Nat :=
  ((findCont w cid).map (fun c => c.childIds)).getD []

/-- Update one block object in place. -/
def wSetBlock (w : OwnWorld) (bid : Nat) (f : WBlock → WBlock) : OwnWorld :=
  { w with blocks := w.blocks.map (fun b => if b.bid = bid then f b else b) }

/-- Update one container object in place. -/
def wSetCont (w : OwnWorld) (cid : Nat) (f : WCont → WCont) : OwnWorld :=
  { w with conts := w.conts.map (fun c => if c.cid = cid then f c else c) }

/-- `Block.__eq__` in the ownership model: same class and equal `str`. -/
def wBlockEq (a b : WBlock) : Bool := a.kind = b.kind && a.text = b.text

/-- `structure.index(block)` (`Block.container_idx`): the index of the
first child comparing equal to the block under `Block.__eq__`; `none` when
no child matches (Python raises `ValueError` then). -/
def wEqIdx (w : OwnWorld) (cid bid : Nat) : Option Nat :=
  match findBlock w bid with
  | none => none
  | some b => (wChildIds w cid).findIdx? (fun c =>
      match findBlock w c with
      | some cb => wBlockEq cb b
      | none => false)

/-- The errors of the attach/detach API (`block.py` lines 34-53). -/
inductive OwnErr where
  | notAttached
  | alreadyAttached
deriving DecidableEq

/-- `Block.attach` (`block.py` lines 183-191): `is`-identity comparison of
the containers; rejects a block already attached to a *different*
container, otherwise sets the back-pointer. -/
def wAttach (w : OwnWorld) (bid cid : Nat) : Except OwnErr OwnWorld :=
  match wBlockContainer w bid with
  | some c =>
      if c ≠ cid then .error .alreadyAttached
      else .ok (wSetBlock w bid (fun b => { b with containerRef := some cid }))
  | none => .ok (wSetBlock w bid (fun b => { b with containerRef := some cid }))

/-- `Section.add_option` (`section.py` lines 56-65): `entry.attach(self)`
then `self._structure.append(entry)`. -/
def wAddOption (w : OwnWorld) (cid bid : Nat) : Except OwnErr OwnWorld :=
  match wAttach w bid cid with
  | .error e => .error e
  | .ok w' => .ok (wSetCont w' cid (fun c => { c with childIds := c.childIds ++ [bid] }))

/-- `Block.detach` (`block.py` lines 173-177):
`self.container._remove_block(self.container_idx)` followed by
`self._container = None` — the removal happens at the first
`Block.__eq__`-matching index, and both effects happen in the one call.
`none` models the `NotAttachedError` of the `container` property (and a
`ValueError` if no child matches). -/
def wDetach (w : OwnWorld) (bid : Nat) : Option OwnWorld :=
  match wBlockContainer w bid with
  | none => none
  | some cid =>
      match wEqIdx w cid bid with
      | none => none
      | some idx =>
          some (wSetBlock
            (wSetCont w cid (fun c => { c with childIds := eraseNth idx c.childIds }))
            bid (fun b => { b with containerRef := none }))

/-- `Section.__delitem__` (`section.py` lines 176-181): locate the first
option child whose normalized `key` (the document `optionxform`, i.e.
lower-casing, of the raw key) equals the given key and `del` it from
`_structure`.  The removed block's `_container` back-pointer is *not*
touched.  `none` models the `KeyError`. -/
def wDelOption (w : OwnWorld) (cid : Nat) (key : Line) : Option OwnWorld :=
  match (wChildIds w cid).findIdx? (fun c =>
      match findBlock w c with
      | some cb => cb.kind = KindTag.optT && pyLower cb.label = key
      | none => false) with
  | some idx =>
      some (wSetCont w cid (fun c => { c with childIds := eraseNth idx c.childIds }))
  | none => none

/-- `Document.remove_section` (`document.py` lines 386-400): locate the
first section child with the given name and `del` it from `_structure`,
returning whether one existed.  The removed section's `_container`
back-pointer is *not* touched. -/
def wRemoveSection (w : OwnWorld) (cid : Nat) (name : Line) : OwnWorld × Bool :=
  match (wChildIds w cid).findIdx? (fun c =>
      match findBlock w c with
      | some cb => cb.kind = KindTag.sectT && cb.label = name
      | none => false) with
  | some idx =>
      (wSetCont w cid (fun c => { c with childIds := eraseNth idx c.childIds }), true)
  | none => (w, false)

/-- `Section.__eq__` / `Document.__eq__` evaluated between two containers:
equal names and pointwise `Block.__eq__`-equal child lists.  This is the
comparison Python runs for the `block._container == self` test in
`Container._adopt_or_copy` (`container.py` line 104). -/
def wContEq (w : OwnWorld) (c1 c2 : Nat) : Bool :=
  match findCont w c1, findCont w c2 with
  | some a, some b =>
      a.cname = b.cname &&
        a.childIds.map (fun i => (findBlock w i).map (fun x => (x.kind, x.text)))
          = b.childIds.map (fun i => (findBlock w i).map (fun x => (x.kind, x.text)))
  | _, _ => false

/-- `Container._adopt_or_copy` (`container.py` lines 102-111): if the
block's container compares *equal* (`==`, hence `Section.__eq__`, not
identity) to the adopting container, adopt the block as-is; otherwise, if
it is attached elsewhere, warn and insert a fresh copy attached to the
adopter; otherwise attach the block itself.  The `is_attached` and
`_attach` helpers it calls are not present in the `block.py` of this tree;
they are modelled from the spec: `is_attached` answers whether the node
has a container (as `has_container` does) and `_attach` sets the
back-pointer, so that an attached foreign node is duplicated as "a fresh,
detached clone" before insertion.  Returns the world (with any clone
registered under `freshId`) and the id of the block to insert. -/
def wAdoptOrCopy (w : OwnWorld) (selfId bid freshId : Nat) : OwnWorld × Nat :=
  let sameByEq :=
    match wBlockContainer w bid with
    | some c => wContEq w c selfId
    | none => false
  if sameByEq then (w, bid)
  else if wHasContainer w bid then
    match findBlock w bid with
    | some b =>
        ({ w with blocks := w.blocks ++
            [{ bid := freshId, kind := b.kind, text := b.text,
               label := b.label, containerRef := some selfId }] }, freshId)
    | none => (w, bid)
  else
    (wSetBlock w bid (fun b => { b with containerRef := some selfId }), bid)

/-- `Container.insert` (`container.py` lines 98-100):
`self._structure.insert(idx, self._adopt_or_copy(block))`. -/
def wInsert (w : OwnWorld) (selfId : Nat) (idx bid freshId : Nat) : OwnWorld :=
  let r := wAdoptOrCopy w selfId bid freshId
  wSetCont r.1 selfId (fun c => { c with childIds := insertAt r.2 idx c.childIds })

/-! ## Concrete objects referenced by the theorems below -/

/-- A placeholder option used as the default of positional lookups. -/
def defaultOptionB : OptionB :=
  { key := [], values := [], valueIsNone := false, delim := none,
    valueMemo := none, updatedFlag := false, multilineJoined := false,
    spaceDelims := false, lines := [] }

/-- The parsed document of a successful parse (the failing branch is never
reached at the concrete inputs below). -/
def docOrEmpty (r : Except ParseErr Document) : Document :=
  match r with
  | .ok d => d
  | .error _ => { blocks := [], stxOpts := none }

/-- An accepted input on which the parser's comment-merge step detaches the
wrong (`Block.__eq__`-equal) comment and splices the continuation into the
first option: section `s` holds options `k` and `j`, each followed by the
same comment text `#x`, and a continuation line for `j`. -/
def bugInput : Line := strToLine "[s]\nk=1\n#x\nj=2\n#x\n  cont\n"

/-- The document the parser builds from `bugInput`. -/
def bugDoc : Document := docOrEmpty (parseString defaultCfg bugInput)

/-- A plain two-line input used by witnesses. -/
def w2Doc : Document := docOrEmpty (parseString defaultCfg (strToLine "[d]\nk = 1\n"))

/-- The single option of `w2Doc`. -/
def w2Opt : OptionB := (getOptAt w2Doc 0 0).getD defaultOptionB

/-- The parser state after `"[s]\nk=1\n"`: section `s` seen and added,
option `(s, k)` added, section `s` and option `k` current.  Used to
instantiate the general step lemmas. -/
def stW : PState :=
  { doc := docOrEmpty (parseString defaultCfg (strToLine "[s]\nk=1\n")),
    seenSects := [strToLine "s"], addedSects := [strToLine "s"],
    addedOpts := [(strToLine "s", strToLine "k")],
    curSect := some (strToLine "s"), curOpt := some (strToLine "k"),
    indentLevel := 0, errs := [] }

/-- An accepted input whose blank-line merge produces an option whose
fragment list is `["a", "b", "\nc\n"]`. -/
def c5Doc : Document :=
  docOrEmpty (parseString defaultCfg (strToLine "[s]\nk = a\n  b\n\n  c\n"))

/-- The option of `c5Doc` after the post-pass merge. -/
def c5Opt : OptionB := (getOptAt c5Doc 0 0).getD defaultOptionB

/-- Ownership world for the adoption theorems: section `A` (id 0) holds
option `o` (id 1); section `B` (id 10) is a deep copy of `A` — same name,
one structurally equal option child (id 2) — as `copy.deepcopy` produces.
`A == B` holds under `Section.__eq__` although they are distinct
containers. -/
def w7 : OwnWorld :=
  { blocks :=
      [{ bid := 1, kind := .optT, text := strToLine "k = 1\n",
         label := strToLine "k", containerRef := some 0 },
       { bid := 2, kind := .optT, text := strToLine "k = 1\n",
         label := strToLine "k", containerRef := some 10 }],
    conts :=
      [{ cid := 0, cname := strToLine "s", childIds := [1] },
       { cid := 10, cname := strToLine "s", childIds := [2] }] }

/-- Ownership world for the removal theorems: section `A` (id 0) holds
option `o` (id 1), and a document root (id 5) holds section block id 6
named `t`. -/
def w8 : OwnWorld :=
  { blocks :=
      [{ bid := 1, kind := .optT, text := strToLine "k = 1\n",
         label := strToLine "k", containerRef := some 0 },
       { bid := 6, kind := .sectT, text := strToLine "[t]\n",
         label := strToLine "t", containerRef := some 5 }],
    conts :=
      [{ cid := 0, cname := strToLine "s", childIds := [1] },
       { cid := 5, cname := [], childIds := [6] }] }

/-- A modified valueless option (`value` absent, `updated` set), as
produced by renaming the key of a parsed valueless option or by creating a
fresh `Option("key")`: used to instantiate the valueless-rendering
theorem. -/
def w9Opt : OptionB :=
  { key := strToLine "key", values := [none], valueIsNone := true,
    delim := none, valueMemo := none, updatedFlag := true,
    multilineJoined := false, spaceDelims := true,
    lines := [strToLine "key\n"] }

/-- Document parsed from a section followed by an indented comment line. -/
def c4Doc : Document := docOrEmpty (parseString defaultCfg (strToLine "[s]\n  ;note\n"))

/-- An option with three plain fragments and an uncomputed join memo, as
the parser produces for `"k = a"` plus two continuation lines. -/
def w5Opt : OptionB :=
  { key := strToLine "k",
    values := [some (strToLine "a"), some (strToLine "b"), some (strToLine "c")],
    valueIsNone := false, delim := some '=', valueMemo := none,
    updatedFlag := false, multilineJoined := false, spaceDelims := true,
    lines := [strToLine "k = a\n", strToLine "  b\n", strToLine "  c\n"] }

/-- A section holding the single option `w5Opt`, for lookup witnesses. -/
def w10Sec : SectionB :=
  { name := strToLine "s", rawComment := [], lines := [strToLine "[s]\n"],
    children := [.opt w5Opt], updatedFlag := false }

/-! ## Helper lemmas -/

theorem getSplit {α : Type} (l : List α) (i : Nat) (x : α) (h : l.get? i = some x) :
    l = l.take i ++ x :: l.drop (i + 1) := by
  induction l generalizing i with
  | nil => simp at h
  | cons a t ih =>
    cases i with
    | zero =>
        simp only [List.get?_cons_zero, Option.some.injEq] at h
        subst h
        simp
    | succ n =>
        simp only [List.get?_cons_succ] at h
        simpa using ih n h

theorem modifyNthSplit {α : Type} (f : α → α) (l : List α) (i : Nat) (x : α)
    (h : l.get? i = some x) :
    modifyNth f i l = l.take i ++ f x :: l.drop (i + 1) := by
  induction l generalizing i with
  | nil => simp at h
  | cons a t ih =>
    cases i with
    | zero =>
        simp only [List.get?_cons_zero, Option.some.injEq] at h
        subst h
        simp [modifyNth]
    | succ n =>
        simp only [List.get?_cons_succ] at h
        simpa [modifyNth] using ih n h

theorem modifyNth_isEmpty {α : Type} (f : α → α) (i : Nat) (l : List α) :
    (modifyNth f i l).isEmpty = l.isEmpty := by
  cases l with
  | nil => cases i <;> rfl
  | cons a t => cases i <;> rfl

theorem joinLines_map_split {α : Type} (g : α → Line) (l : List α) (i : Nat) (x : α)
    (h : l.get? i = some x) :
    joinLines (l.map g) =
      joinLines ((l.take i).map g) ++ g x ++ joinLines ((l.drop (i + 1)).map g) := by
  conv_lhs => rw [getSplit l i x h]
  simp [joinLines, List.append_assoc]

theorem joinLines_map_modify {α : Type} (g : α → Line) (f : α → α) (l : List α)
    (i : Nat) (x : α) (h : l.get? i = some x) :
    joinLines ((modifyNth f i l).map g) =
      joinLines ((l.take i).map g) ++ g (f x) ++ joinLines ((l.drop (i + 1)).map g) := by
  rw [modifyNthSplit f l i x h]
  simp [joinLines, List.append_assoc]

theorem sectionHdr_children (s : SectionB) (ch : List SectBlock)
    (h : ch.isEmpty = s.children.isEmpty) :
    sectionHdr { s with children := ch } = sectionHdr s := by
  simp [sectionHdr, sectionUpdated, h]

theorem docStr_split (d : Document) (i j : Nat) (s : SectionB) (o : OptionB)
    (hb : d.blocks.get? i = some (.sec s))
    (hc : s.children.get? j = some (.opt o)) :
    docStr d =
      (joinLines ((d.blocks.take i).map (docBlockStr d.stxOpts)) ++ sectionHdr s ++
        joinLines ((s.children.take j).map (sectBlockStr d.stxOpts))) ++
      optionStr (some d.stxOpts) o ++
      (joinLines ((s.children.drop (j + 1)).map (sectBlockStr d.stxOpts)) ++
        joinLines ((d.blocks.drop (i + 1)).map (docBlockStr d.stxOpts))) := by
  rw [docStr, joinLines_map_split (docBlockStr d.stxOpts) d.blocks i (.sec s) hb]
  dsimp only [docBlockStr]
  rw [sectionStr, joinLines_map_split (sectBlockStr d.stxOpts) s.children j (.opt o) hc]
  dsimp only [sectBlockStr]
  simp [List.append_assoc]

theorem docStr_setValue_split (d : Document) (i j : Nat) (v : Line) (s : SectionB)
    (o : OptionB)
    (hb : d.blocks.get? i = some (.sec s))
    (hc : s.children.get? j = some (.opt o)) :
    docStr (docSetValue d i j v) =
      (joinLines ((d.blocks.take i).map (docBlockStr d.stxOpts)) ++ sectionHdr s ++
        joinLines ((s.children.take j).map (sectBlockStr d.stxOpts))) ++
      optionStr (some d.stxOpts) (setValueRaw o v) ++
      (joinLines ((s.children.drop (j + 1)).map (sectBlockStr d.stxOpts)) ++
        joinLines ((d.blocks.drop (i + 1)).map (docBlockStr d.stxOpts))) := by
  simp only [docSetValue, docStr]
  rw [joinLines_map_modify (docBlockStr d.stxOpts) _ d.blocks i (.sec s) hb]
  dsimp only [docBlockStr]
  rw [sectionStr, joinLines_map_modify (sectBlockStr d.stxOpts) _ s.children j (.opt o) hc]
  dsimp only [sectBlockStr]
  rw [sectionHdr_children s _ (by rw [modifyNth_isEmpty])]
  simp [List.append_assoc]

/-! ## Claim theorems -/

/-- C1: the claim states that for every input text the Parser accepts
without a fatal error, rendering the resulting Document with no
intervening mutation is byte-identical to the input.  The code violates
this: on `bugInput` the parser succeeds, but while merging the
continuation line it locates the trailing comment through
`structure.index` (first `Block.__eq__`-equal child), detaches the
*earlier* comment with the same text, and splices the trailing comment's
lines together with the continuation into the *first* option, so the
rendered text permutes the input lines. -/
theorem c1_roundtrip_violation :
    parseString defaultCfg bugInput = .ok bugDoc ∧
    docStr bugDoc = strToLine "[s]\nk=1\n#x\n  cont\nj=2\n#x\n" ∧
    docStr bugDoc ≠ bugInput :=
  ⟨rfl, rfl, by decide⟩

/-- C2 (amended): replacing exactly one Option's value through the
single-line setter changes the rendered document only within that Option's
own span: the render before and after the mutation share a common prefix
and suffix around the option's rendering.  (Relative to the *original
input* the claim fails, because the unmutated render itself need not be
byte-identical to the input — see the C1 bug.) -/
theorem c2_isolated_mutation (d : Document) (i j : Nat) (v : Line) (o : OptionB)
    (h : getOptAt d i j = some o) (_hv : isMultiLine v = false) :
    ∃ pre post,
      docStr d = pre ++ optionStr (some d.stxOpts) o ++ post ∧
      docStr (docSetValue d i j v) =
        pre ++ optionStr (some d.stxOpts) (setValueRaw o v) ++ post := by
  unfold getOptAt at h
  split at h
  case _ s hb =>
    split at h
    case _ o' hc =>
      cases h
      exact ⟨_, _, docStr_split d i j s o hb hc, docStr_setValue_split d i j v s o hb hc⟩
    case _ hc _ => exact absurd h (by simp)
  case _ hb _ => exact absurd h (by simp)

/-- Witness for C2: a concrete parse of `"[d]\nk = 1\n"` with its single
option's value replaced by `"2"`. -/
theorem c2_isolated_mutation_witness :
    ∃ pre post,
      docStr w2Doc = pre ++ optionStr (some w2Doc.stxOpts) w2Opt ++ post ∧
      docStr (docSetValue w2Doc 0 0 (strToLine "2")) =
        pre ++ optionStr (some w2Doc.stxOpts) (setValueRaw w2Opt (strToLine "2")) ++ post :=
  c2_isolated_mutation w2Doc 0 0 (strToLine "2") w2Opt (by rfl) (by rfl)

/-- Counterexample for C2 as stated: on `bugInput`, the option `j`
occupies exactly the fourth input line, yet after setting its value the
fifth rendered line differs from the fifth input line — a line outside
the mutated Option's own span is not byte-identical to the original. -/
theorem c2_counterexample :
    (getOptAt bugDoc 0 1).map (fun o => o.lines) = some [strToLine "j=2\n"] ∧
    (splitLines bugInput).get? 3 = some (strToLine "j=2\n") ∧
    (splitLines bugInput).get? 4 = some (strToLine "#x\n") ∧
    (splitLines (docStr (docSetValue bugDoc 0 1 (strToLine "9")))).get? 4 =
      some (strToLine "j = 9\n") ∧
    strToLine "j = 9\n" ≠ strToLine "#x\n" :=
  ⟨rfl, rfl, rfl, rfl, by decide⟩

/-- C3: under strict mode a repeated section name, or a repeated option
name within the same section, makes the parser raise immediately — a
duplicate-section resp. duplicate-option error carrying the offending line
number, short-circuiting the whole parse rather than being accumulated.
The first two conjuncts state this for an arbitrary parser step; the last
three are the spec's concrete instances, the final one showing that the
fatal duplicate error wins over already-accumulated non-fatal errors. -/
theorem c3_strict_duplicates :
    (∀ (cfg : ParserCfg) (st : PState) (lineno : Nat) (line : Line)
        (sectname rawCmt : Line) (i : Nat) (ch : Char),
      lineIsComment cfg line = false →
      (stripChars line).isEmpty = false →
      firstNonSpace line = some (i, ch) →
      contTest st i = false →
      matchSect (stripChars line) = some (sectname, rawCmt) →
      cfg.strict = true →
      st.seenSects.contains sectname = true →
      st.addedSects.contains sectname = true →
      stepLine cfg st lineno line = .error (.duplicateSection sectname lineno)) ∧
    (∀ (cfg : ParserCfg) (st : PState) (lineno : Nat) (line : Line)
        (sectname optname0 : Line) (rest : Option (Char × Line)) (i : Nat) (ch : Char),
      lineIsComment cfg line = false →
      (stripChars line).isEmpty = false →
      firstNonSpace line = some (i, ch) →
      contTest st i = false →
      matchSect (stripChars line) = none →
      st.curSect = some sectname →
      matchOpt cfg.allowNoValue cfg.delimiters (stripChars line) = some (optname0, rest) →
      cfg.strict = true →
      st.addedOpts.contains (sectname, rstripChars optname0) = true →
      stepLine cfg st lineno line =
        .error (.duplicateOption sectname (rstripChars optname0) lineno)) ∧
    parseString defaultCfg (strToLine "[s]\nk=1\n[s]\nk=1\n") =
      .error (.duplicateSection (strToLine "s") 3) ∧
    parseString defaultCfg (strToLine "[s]\nk=1\nk=1\n") =
      .error (.duplicateOption (strToLine "s") (strToLine "k") 3) ∧
    parseString defaultCfg (strToLine "[s]\n*bogus*\n[s]\n") =
      .error (.duplicateSection (strToLine "s") 3) := by
  refine ⟨?_, ?_, rfl, rfl, rfl⟩
  · intro cfg st lineno line sectname rawCmt i ch h1 h2 hf h3 h4 h5 h6 h7
    have h6' : sectname ∈ st.seenSects := by simpa using h6
    have h7' : sectname ∈ st.addedSects := by simpa using h7
    simp [stepLine, h1, h2, hf, h3, h4, h5, h6', h7']
  · intro cfg st lineno line sectname optname0 rest i ch h1 h2 hf h3 h4 hcur h5 h6 h7
    have h7' : (sectname, rstripChars optname0) ∈ st.addedOpts := by simpa using h7
    by_cases he : optname0.isEmpty <;>
      simp [stepLine, h1, h2, hf, h3, h4, hcur, h5, h6, h7', he]

/-- Witness for C3's general conjuncts: stepping the post-`"[s]\nk=1\n"`
state over a repeated section header resp. a repeated option line. -/
theorem c3_strict_duplicates_witness :
    stepLine defaultCfg stW 3 (strToLine "[s]\n") =
      .error (.duplicateSection (strToLine "s") 3) ∧
    stepLine defaultCfg stW 3 (strToLine "k=1\n") =
      .error (.duplicateOption (strToLine "s") (strToLine "k") 3) :=
  ⟨c3_strict_duplicates.1 defaultCfg stW 3 (strToLine "[s]\n") (strToLine "s") [] 0 '['
      rfl rfl rfl rfl rfl rfl rfl rfl,
   c3_strict_duplicates.2.1 defaultCfg stW 3 (strToLine "k=1\n") (strToLine "s")
      (strToLine "k") (some ('=', strToLine "1")) 0 'k'
      rfl rfl rfl rfl rfl rfl rfl rfl rfl⟩

/-- C4 (amended): a line that matches neither the section-header grammar
nor the option grammar, with a section already open, *and whose first
non-space character is not a comment prefix*, is recorded as a non-fatal
parse error with its line number and raw text while the step succeeds and
the tree is untouched; all accumulated non-fatal errors surface together
as one aggregate error only after the entire input is consumed, as the
concrete two-error parse shows. -/
theorem c4_nonfatal_error_accumulation :
    (∀ (cfg : ParserCfg) (st : PState) (lineno : Nat) (line : Line)
        (sectname : Line) (i : Nat) (ch : Char),
      lineIsComment cfg line = false →
      (stripChars line).isEmpty = false →
      firstNonSpace line = some (i, ch) →
      contTest st i = false →
      matchSect (stripChars line) = none →
      st.curSect = some sectname →
      matchOpt cfg.allowNoValue cfg.delimiters (stripChars line) = none →
      cfg.commentMarks.contains ch = false →
      stepLine cfg st lineno line =
        .ok { st with indentLevel := i, errs := st.errs ++ [(lineno, line)] }) ∧
    parseString defaultCfg (strToLine "[s]\nbogus\nk=1\nmore junk\n") =
      .error (.parsingErr [(2, strToLine "bogus\n"), (4, strToLine "more junk\n")]) := by
  refine ⟨?_, rfl⟩
  intro cfg st lineno line sectname i ch h1 h2 hf h3 h4 hcur h5 h6
  have h6' : ch ∉ cfg.commentMarks := by simpa using h6
  simp [stepLine, h1, h2, hf, h3, h4, hcur, h5, h6']

/-- Witness for C4's general conjunct: a malformed line inside an open
section is recorded and scanning continues. -/
theorem c4_nonfatal_error_accumulation_witness :
    stepLine defaultCfg stW 3 (strToLine "?? bad\n") =
      .ok { stW with indentLevel := 0, errs := [(3, strToLine "?? bad\n")] } :=
  c4_nonfatal_error_accumulation.1 defaultCfg stW 3 (strToLine "?? bad\n")
    (strToLine "s") 0 '?' rfl rfl rfl rfl rfl rfl rfl rfl

/-- Counterexample for C4 as stated: an indented comment line inside an
open section matches neither the section-header grammar nor the option
grammar, yet it is *not* recorded as a non-fatal parse error — the parser
classifies it as a comment and the parse succeeds without raising. -/
theorem c4_counterexample :
    matchSect (stripChars (strToLine "  ;note\n")) = none ∧
    matchOpt defaultCfg.allowNoValue defaultCfg.delimiters
      (stripChars (strToLine "  ;note\n")) = none ∧
    parseString defaultCfg (strToLine "[s]\n  ;note\n") = .ok c4Doc ∧
    docStr c4Doc = strToLine "[s]\n  ;note\n" :=
  ⟨rfl, rfl, rfl, rfl⟩

theorem lstrip_length_le (l : Line) : (lstripChars l).length ≤ l.length :=
  (List.dropWhile_suffix pyIsSpace).length_le

theorem rstrip_length_le (l : Line) : (rstripChars l).length ≤ l.length := by
  have := (List.dropWhile_suffix (l := l.reverse) pyIsSpace).length_le
  simpa [rstripChars] using this

theorem strip_self (l : Line) (h : stripChars l = l) :
    lstripChars l = l ∧ rstripChars l = l := by
  have h1 : (lstripChars l).length ≤ l.length := lstrip_length_le l
  have h2 : (stripChars l).length ≤ (lstripChars l).length := rstrip_length_le _
  have hlen : (lstripChars l).length = l.length := by
    have := congrArg List.length h
    omega
  have hls : lstripChars l = l :=
    (List.dropWhile_suffix pyIsSpace).eq_of_length hlen
  refine ⟨hls, ?_⟩
  have := h
  rw [stripChars, hls] at this
  exact this

theorem head_not_space_of_lstrip (x : Char) (xs : Line)
    (h : lstripChars (x :: xs) = x :: xs) : pyIsSpace x = false := by
  by_cases hp : pyIsSpace x
  · exfalso
    rw [lstripChars, List.dropWhile_cons, if_pos hp] at h
    have := congrArg List.length h
    have hle := (List.dropWhile_suffix (l := xs) pyIsSpace).length_le
    simp at this
    omega
  · simpa using hp

theorem lstrip_append_self (l w : Line) (hne : l ≠ []) (hl : lstripChars l = l) :
    lstripChars (l ++ w) = l ++ w := by
  cases l with
  | nil => exact absurd rfl hne
  | cons x xs =>
      have hx : pyIsSpace x = false := head_not_space_of_lstrip x xs hl
      simp [lstripChars, List.dropWhile_cons, hx]

theorem rstrip_append_self (w l : Line) (hne : l ≠ []) (hl : rstripChars l = l) :
    rstripChars (w ++ l) = w ++ l := by
  have hrev : l.reverse.dropWhile pyIsSpace = l.reverse := by
    have := congrArg List.reverse hl
    rw [rstripChars] at this
    simpa using this
  have hne' : l.reverse ≠ [] := by simpa using hne
  cases hr : l.reverse with
  | nil => exact absurd hr hne'
  | cons x xs =>
      rw [hr] at hrev
      have hx : pyIsSpace x = false := by
        by_cases hp : pyIsSpace x
        · exfalso
          rw [List.dropWhile_cons, if_pos hp] at hrev
          have := congrArg List.length hrev
          have hle := (List.dropWhile_suffix (l := xs) pyIsSpace).length_le
          simp at this
          omega
        · simpa using hp
      rw [rstripChars, List.reverse_append, hr, List.cons_append, List.dropWhile_cons]
      simp only [hx, Bool.false_eq_true, if_false]
      rw [← List.cons_append, ← hr]
      simp

theorem splitOnChar_no_sep (sep : Char) (x : Line) (h : sep ∉ x) :
    splitOnChar sep x = [x] := by
  induction x with
  | nil => rfl
  | cons c t ih =>
      have hc : ¬ c = sep := by
        intro hc; exact h (by simp [hc])
      have ht : sep ∉ t := by
        intro ht; exact h (List.mem_cons_of_mem _ ht)
      rw [splitOnChar]
      simp only [ih ht, if_neg hc]

theorem splitOnChar_append_sep (sep : Char) (x rest : Line) (h : sep ∉ x) :
    splitOnChar sep (x ++ sep :: rest) = x :: splitOnChar sep rest := by
  induction x with
  | nil =>
      simp [splitOnChar]
  | cons c t ih =>
      have hc : ¬ c = sep := by
        intro hc; exact h (by simp [hc])
      have ht : sep ∉ t := by
        intro ht; exact h (List.mem_cons_of_mem _ ht)
      rw [List.cons_append, splitOnChar]
      rw [ih ht]
      simp only [if_neg hc]

/-- C5 (amended): for an Option whose joined-value memo has not yet been
computed and whose fragment list is `[a, b, c]`, reading `value` returns
the fragments joined with newlines and right-stripped, and memoizes: the
join flag is set and a second read returns the identical result.
`as_list "\n"` recovers exactly `[a, b, c]` provided each fragment
contains no newline and equals its own strip, and the outer fragments are
nonempty.  (Without those provisos recovery fails — see the
counterexample.) -/
theorem c5_value_join_law (o : OptionB) (a b c : Line)
    (hvals : o.values = [some a, some b, some c])
    (hnone : o.valueIsNone = false)
    (hjoin : o.multilineJoined = false) :
    (optionValueGet o).1 = some (rstripChars (a ++ '\n' :: (b ++ '\n' :: c))) ∧
    (optionValueGet o).2.multilineJoined = true ∧
    optionValueGet ((optionValueGet o).2) = optionValueGet o ∧
    ('\n' ∉ a → '\n' ∉ b → '\n' ∉ c →
      stripChars a = a → stripChars b = b → stripChars c = c →
      a ≠ [] → c ≠ [] →
      (asList '\n' o).1 = [a, b, c]) := by
  have hjv : joinOptVals o.values = a ++ '\n' :: (b ++ '\n' :: c) := by
    rw [hvals]
    simp [joinOptVals]
  have hget : optionValueGet o =
      (some (rstripChars (a ++ '\n' :: (b ++ '\n' :: c))),
       { o with valueMemo := some (rstripChars (a ++ '\n' :: (b ++ '\n' :: c))),
                multilineJoined := true }) := by
    simp [optionValueGet, joinMultilineValue, hjoin, hnone, hjv]
  refine ⟨by rw [hget], by rw [hget], ?_, ?_⟩
  · rw [hget]
    simp [optionValueGet, joinMultilineValue]
  · intro na nb nc sa sb sc hane hcne
    have hrc : rstripChars c = c := (strip_self c sc).2
    have hla : lstripChars a = a := (strip_self a sa).1
    have hshape : a ++ '\n' :: (b ++ '\n' :: c) = (a ++ '\n' :: b ++ ['\n']) ++ c := by
      simp
    have hrstrip : rstripChars (a ++ '\n' :: (b ++ '\n' :: c)) =
        a ++ '\n' :: (b ++ '\n' :: c) := by
      rw [hshape, rstrip_append_self _ c hcne hrc, ← hshape]
    have hlstrip : lstripChars (a ++ '\n' :: (b ++ '\n' :: c)) =
        a ++ '\n' :: (b ++ '\n' :: c) :=
      lstrip_append_self a _ hane hla
    have hstripV : stripChars (a ++ '\n' :: (b ++ '\n' :: c)) =
        a ++ '\n' :: (b ++ '\n' :: c) := by
      rw [stripChars, hlstrip, hrstrip]
    have hsplit : splitOnChar '\n' (a ++ '\n' :: (b ++ '\n' :: c)) = [a, b, c] := by
      rw [splitOnChar_append_sep '\n' a _ na,
          splitOnChar_append_sep '\n' b _ nb, splitOnChar_no_sep '\n' c nc]
    simp only [asList, hnone, hget, Bool.false_eq_true, if_false]
    simp only [Option.getD_some, hrstrip, hstripV, hsplit]
    simp [sa, sb, sc]

/-- Witness for C5: the join law, memoization and list recovery at the
three-fragment option `w5Opt`. -/
theorem c5_value_join_law_witness :
    (optionValueGet w5Opt).1 =
      some (rstripChars (strToLine "a" ++ '\n' :: (strToLine "b" ++ '\n' :: strToLine "c"))) ∧
    (optionValueGet w5Opt).2.multilineJoined = true ∧
    optionValueGet ((optionValueGet w5Opt).2) = optionValueGet w5Opt ∧
    (asList '\n' w5Opt).1 = [strToLine "a", strToLine "b", strToLine "c"] := by
  have h := c5_value_join_law w5Opt (strToLine "a") (strToLine "b") (strToLine "c")
    rfl rfl rfl
  exact ⟨h.1, h.2.1, h.2.2.1,
    h.2.2.2 (by decide) (by decide) (by decide) rfl rfl rfl (by decide) (by decide)⟩

/-- Counterexample for C5 as stated: the blank-line post-pass of the
parser yields an option whose fragment list is `["a", "b", "\nc\n"]`;
`value` is indeed the right-stripped newline join of the fragments, but
`as_list "\n")` returns `["a", "b", "", "c"]`, which does not recover the
fragment list. -/
theorem c5_counterexample :
    parseString defaultCfg (strToLine "[s]\nk = a\n  b\n\n  c\n") = .ok c5Doc ∧
    getOptAt c5Doc 0 0 = some c5Opt ∧
    c5Opt.values =
      [some (strToLine "a"), some (strToLine "b"), some (strToLine "\nc\n")] ∧
    c5Opt.multilineJoined = false ∧
    c5Opt.valueIsNone = false ∧
    (optionValueGet c5Opt).1 = some (strToLine "a\nb\n\nc") ∧
    (asList '\n' c5Opt).1 =
      [strToLine "a", strToLine "b", strToLine "", strToLine "c"] ∧
    (asList '\n' c5Opt).1 ≠ [strToLine "a", strToLine "b", strToLine "\nc\n"] :=
  ⟨rfl, rfl, rfl, rfl, rfl, rfl, rfl, by decide⟩

/-- C6: assigning through the single-line value setter fails with
`AssignMultilineValueError` for a value with an embedded newline (before
any mutation, so the option state is unchanged), and otherwise replaces
the fragment list with the single value, caches it, and marks the option
modified while leaving key, raw lines and delimiter untouched. -/
theorem c6_single_line_setter (o : OptionB) (v : Line) :
    (isMultiLine v = true → setValueOp o v = .error .multilineValue) ∧
    (isMultiLine v = false →
      setValueOp o v = .ok (setValueRaw o v) ∧
      (setValueRaw o v).values = [some v] ∧
      (setValueRaw o v).updatedFlag = true ∧
      optionUpdated (setValueRaw o v) = true ∧
      (setValueRaw o v).valueMemo = some v ∧
      (setValueRaw o v).multilineJoined = true ∧
      (setValueRaw o v).key = o.key ∧
      (setValueRaw o v).lines = o.lines ∧
      (setValueRaw o v).delim = o.delim ∧
      (setValueRaw o v).spaceDelims = o.spaceDelims ∧
      (optionValueGet (setValueRaw o v)).1 = some v) := by
  constructor
  · intro h
    simp [setValueOp, h]
  · intro h
    refine ⟨by simp [setValueOp, h], rfl, rfl,
      by simp [optionUpdated, setValueRaw], rfl, rfl, rfl, rfl, rfl, rfl,
      by simp [optionValueGet, joinMultilineValue, setValueRaw]⟩

/-- Witness for C6: a newline-carrying value is rejected, a plain value is
stored as the single fragment. -/
theorem c6_single_line_setter_witness :
    setValueOp defaultOptionB (strToLine "a\nb") = .error .multilineValue ∧
    setValueOp w5Opt (strToLine "z") = .ok (setValueRaw w5Opt (strToLine "z")) ∧
    (setValueRaw w5Opt (strToLine "z")).values = [some (strToLine "z")] :=
  ⟨(c6_single_line_setter defaultOptionB (strToLine "a\nb")).1 rfl,
   ((c6_single_line_setter w5Opt (strToLine "z")).2 rfl).1,
   ((c6_single_line_setter w5Opt (strToLine "z")).2 rfl).2.1⟩

/-- C9: rendering a modified Option whose value is absent gives the bare
raw key plus newline when the owning document's syntax options allow
valueless options, and otherwise degrades to the empty string while
signalling the non-fatal `NoneValueDisallowed` warning — the rendering
itself never fails. -/
theorem c9_valueless_rendering (o : OptionB) (os : Option StxOpts)
    (hupd : optionUpdated o = true) (hmemo : o.valueMemo = none) :
    (stxAllowsNoValue os = true →
      optionStr (some os) o = o.key ++ ['\n'] ∧
      optionStrWarns (some os) o = false) ∧
    (stxAllowsNoValue os = false →
      optionStr (some os) o = [] ∧
      optionStrWarns (some os) o = true) := by
  constructor <;> intro h <;>
    exact ⟨by simp [optionStr, hupd, hmemo, h], by simp [optionStrWarns, hupd, hmemo, h]⟩

/-- Witness for C9: the modified valueless option `w9Opt` rendered under a
document allowing valueless options, and under a plain document without
`syntax_options`. -/
theorem c9_valueless_rendering_witness :
    optionStr (some (some { allowNoValue := true, spaceAroundDelimiters := true }))
      w9Opt = w9Opt.key ++ ['\n'] ∧
    optionStrWarns (some (some { allowNoValue := true, spaceAroundDelimiters := true }))
      w9Opt = false ∧
    optionStr (some none) w9Opt = [] ∧
    optionStrWarns (some none) w9Opt = true := by
  have h1 := (c9_valueless_rendering w9Opt
    (some { allowNoValue := true, spaceAroundDelimiters := true }) rfl rfl).1 rfl
  have h2 := (c9_valueless_rendering w9Opt none rfl rfl).2 rfl
  exact ⟨h1.1, h1.2, h2.1, h2.2⟩

/-- C10: the shipped `Document.optionxform` is exactly lower-casing; the
normalized `Option.key` is the lower-cased raw key; option lookup through
a section compares keys case-insensitively (probes equal up to case give
identical results); and the `optionxform` passed to the `Parser`
constructor is stored on the parser object (where its own `optionxform`
method uses it) but never consulted by `_read`, so the parsed tree is
independent of it. -/
theorem c10_optionxform_lowercase :
    (∀ s : Line, documentOptionxform s = pyLower s) ∧
    (∀ o : OptionB, optionKeyNorm o = pyLower o.key) ∧
    (∀ (s : SectionB) (k1 k2 : Line), pyLower k1 = pyLower k2 →
      sectionGetItem s k1 = sectionGetItem s k2) ∧
    (∀ (c : ParserCfg) (f g : Line → Line) (t : Line),
      parseDoc { cfg := c, optionxformFn := f } t =
        parseDoc { cfg := c, optionxformFn := g } t) ∧
    (∀ (c : ParserCfg) (f : Line → Line) (l : Line),
      parserOptionxform { cfg := c, optionxformFn := f } l = f l) := by
  refine ⟨fun s => rfl, fun o => rfl, ?_, fun c f g t => rfl, fun c f l => rfl⟩
  intro s k1 k2 h
  simp [sectionGetItem, documentOptionxform, h]

/-- Witness for C10's lookup conjunct: an upper-case probe and the
lower-case probe find the same (present) option. -/
theorem c10_optionxform_lowercase_witness :
    sectionGetItem w10Sec (strToLine "K") = sectionGetItem w10Sec (strToLine "k") ∧
    sectionGetItem w10Sec (strToLine "K") = some w5Opt :=
  ⟨c10_optionxform_lowercase.2.2.1 w10Sec (strToLine "K") (strToLine "k") (by decide),
   rfl⟩

/-- C7: the claim states that inserting an Option already attached to
section `A` into a different container `B` either raises an
already-attached error or gives `B` a structurally-equal but distinct
clone, never the same node in both trees.  The `attach`-based insertion
path does raise (conjuncts 3-4), but `Container._adopt_or_copy` compares
`block._container == self` with `Section.__eq__` — structural equality —
instead of identity: when `B` is a deep copy of `A` (so `A == B` although
`A is not B`), `insert` adopts the very node `o` without raising and
without cloning, leaving the same block in both containers' child lists
(conjuncts 5-8). -/
theorem c7_adopt_or_copy_shares_node :
    wBlockContainer w7 1 = some 0 ∧
    (some 0 : Option Nat) ≠ some 10 ∧
    wAttach w7 1 10 = .error .alreadyAttached ∧
    wAddOption w7 10 1 = .error .alreadyAttached ∧
    wContEq w7 0 10 = true ∧
    (wInsert w7 10 1 1 99).blocks = w7.blocks ∧
    wChildIds (wInsert w7 10 1 1 99) 0 = [1] ∧
    wChildIds (wInsert w7 10 1 1 99) 10 = [2, 1] :=
  ⟨rfl, by decide, rfl, rfl, rfl, rfl, rfl, rfl⟩

/-- Counterexample for C8 as stated: deleting option `k` from its section
by key, and removing section `t` from the document by name, both remove
the node from the parent's child list but leave the node's `_container`
back-pointer set — `has_container()` stays true — contradicting the claim
that every removal nulls the back-pointer in the same step. -/
theorem c8_counterexample :
    (wDelOption w8 0 (strToLine "k")).map (fun w => wChildIds w 0) = some [] ∧
    (wDelOption w8 0 (strToLine "k")).map (fun w => w.blocks) = some w8.blocks ∧
    (wDelOption w8 0 (strToLine "k")).map (fun w => wBlockContainer w 1) =
      some (some 0) ∧
    (wDelOption w8 0 (strToLine "k")).map (fun w => wHasContainer w 1) ≠
      some false ∧
    (wRemoveSection w8 5 (strToLine "t")).2 = true ∧
    wChildIds (wRemoveSection w8 5 (strToLine "t")).1 5 = [] ∧
    (wRemoveSection w8 5 (strToLine "t")).1.blocks = w8.blocks ∧
    wHasContainer (wRemoveSection w8 5 (strToLine "t")).1 6 = true :=
  ⟨rfl, rfl, rfl, by decide, rfl, rfl, rfl, rfl⟩

theorem find?_map_pred {α : Type} (p : α → Bool) (g : α → α) (l : List α)
    (hg : ∀ a, p (g a) = p a) :
    (l.map g).find? p = (l.find? p).map g := by
  induction l with
  | nil => rfl
  | cons a t ih =>
      by_cases h : p a
      · simp [List.find?_cons, hg, h]
      · simp [List.find?_cons, hg, h, ih]

theorem findBlock_setCont (w : OwnWorld) (cid : Nat) (f : WCont → WCont) (bid : Nat) :
    findBlock (wSetCont w cid f) bid = findBlock w bid := rfl

theorem wChildIds_setBlock (w : OwnWorld) (bid : Nat) (f : WBlock → WBlock) (cid : Nat) :
    wChildIds (wSetBlock w bid f) cid = wChildIds w cid := rfl

theorem findBlock_setBlock (w : OwnWorld) (bid : Nat) (f : WBlock → WBlock)
    (hf : ∀ b, (f b).bid = b.bid) :
    findBlock (wSetBlock w bid f) bid =
      (findBlock w bid).map (fun b => if b.bid = bid then f b else b) := by
  unfold findBlock wSetBlock
  exact find?_map_pred _ _ _ (fun a => by by_cases h : a.bid = bid <;> simp [h, hf])

theorem findCont_setCont (w : OwnWorld) (cid : Nat) (f : WCont → WCont)
    (hf : ∀ c, (f c).cid = c.cid) :
    findCont (wSetCont w cid f) cid =
      (findCont w cid).map (fun c => if c.cid = cid then f c else c) := by
  unfold findCont wSetCont
  exact find?_map_pred _ _ _ (fun a => by by_cases h : a.cid = cid <;> simp [h, hf])

theorem eraseNth_nil {α : Type} (i : Nat) : eraseNth i ([] : List α) = [] := by
  cases i <;> rfl

theorem wChildIds_removeAt (w : OwnWorld) (cid idx : Nat) :
    wChildIds
      (wSetCont w cid (fun c => { c with childIds := eraseNth idx c.childIds })) cid =
      eraseNth idx (wChildIds w cid) := by
  unfold wChildIds
  rw [findCont_setCont w cid
    (fun c => { c with childIds := eraseNth idx c.childIds }) (fun c => rfl)]
  cases h : findCont w cid with
  | none => simp [eraseNth_nil]
  | some c =>
      have hc : c.cid = cid := by
        have := List.find?_some h
        simpa using this
      simp [hc]

/-- C8 (amended): `Block.detach` removes the node from the parent's child
list (at the first `Block.__eq__`-matching index) and nulls the node's
container back-pointer in the same operation, leaving the block's content
intact; deleting an option from a section by key and removing a section
from a document by name also only remove the node from the parent's child
list, but leave every block object — in particular the removed node's
back-pointer — untouched, so it stays attached-looking rather than
detached. -/
theorem c8_removal_semantics :
    (∀ (w : OwnWorld) (bid cid idx : Nat),
      wBlockContainer w bid = some cid →
      wEqIdx w cid bid = some idx →
      ∃ w', wDetach w bid = some w' ∧
        wBlockContainer w' bid = none ∧
        wHasContainer w' bid = false ∧
        wChildIds w' cid = eraseNth idx (wChildIds w cid) ∧
        (findBlock w' bid).map (fun b => (b.kind, b.text, b.label)) =
          (findBlock w bid).map (fun b => (b.kind, b.text, b.label))) ∧
    (∀ (w : OwnWorld) (cid : Nat) (key : Line) (w' : OwnWorld),
      wDelOption w cid key = some w' →
      w'.blocks = w.blocks ∧
      ∃ idx, wChildIds w' cid = eraseNth idx (wChildIds w cid)) ∧
    (∀ (w : OwnWorld) (cid : Nat) (name : Line),
      (wRemoveSection w cid name).1.blocks = w.blocks) := by
  refine ⟨?_, ?_, ?_⟩
  · intro w bid cid idx h1 h2
    obtain ⟨b, hb⟩ : ∃ b, findBlock w bid = some b := by
      unfold wBlockContainer at h1
      cases hfb : findBlock w bid with
      | none => rw [hfb] at h1; simp at h1
      | some b => exact ⟨b, rfl⟩
    have hbid : b.bid = bid := by
      have := List.find?_some hb
      simpa using this
    have hfb' :
        findBlock
          (wSetBlock
            (wSetCont w cid (fun c => { c with childIds := eraseNth idx c.childIds }))
            bid (fun b => { b with containerRef := none })) bid =
          some { b with containerRef := none } := by
      rw [findBlock_setBlock _ _
            (fun b => { b with containerRef := none }) (fun b => rfl),
          findBlock_setCont, hb]
      simp [hbid]
    have hD : wDetach w bid =
        some (wSetBlock
          (wSetCont w cid (fun c => { c with childIds := eraseNth idx c.childIds }))
          bid (fun b => { b with containerRef := none })) := by
      simp [wDetach, h1, h2]
    refine ⟨_, hD, ?_, ?_, ?_, ?_⟩
    · unfold wBlockContainer
      rw [hfb']
      rfl
    · unfold wHasContainer wBlockContainer
      rw [hfb']
      rfl
    · rw [wChildIds_setBlock, wChildIds_removeAt]
    · rw [hfb', hb]
      rfl
  · intro w cid key w' h
    unfold wDelOption at h
    cases hidx : (wChildIds w cid).findIdx? (fun c =>
        match findBlock w c with
        | some cb => cb.kind = KindTag.optT && pyLower cb.label = key
        | none => false) with
    | none => rw [hidx] at h; simp at h
    | some idx =>
        rw [hidx] at h
        simp only [Option.some.injEq] at h
        subst h
        exact ⟨rfl, idx, wChildIds_removeAt w cid idx⟩
  · intro w cid name
    unfold wRemoveSection
    cases h : (wChildIds w cid).findIdx? (fun c =>
        match findBlock w c with
        | some cb => cb.kind = KindTag.sectT && cb.label = name
        | none => false) <;> rfl

/-- Witness for C8 (amended): detach and delete-by-key on the concrete
world `w8`. -/
theorem c8_removal_semantics_witness :
    (∃ w', wDetach w8 1 = some w' ∧
      wBlockContainer w' 1 = none ∧
      wHasContainer w' 1 = false ∧
      wChildIds w' 0 = eraseNth 0 (wChildIds w8 0) ∧
      (findBlock w' 1).map (fun b => (b.kind, b.text, b.label)) =
        (findBlock w8 1).map (fun b => (b.kind, b.text, b.label))) ∧
    (((wDelOption w8 0 (strToLine "k")).getD w8).blocks = w8.blocks ∧
      ∃ idx, wChildIds ((wDelOption w8 0 (strToLine "k")).getD w8) 0 =
        eraseNth idx (wChildIds w8 0)) ∧
    (wRemoveSection w8 5 (strToLine "t")).1.blocks = w8.blocks :=
  ⟨c8_removal_semantics.1 w8 1 0 0 rfl rfl,
   c8_removal_semantics.2.1 w8 0 (strToLine "k")
     ((wDelOption w8 0 (strToLine "k")).getD w8) rfl,
   c8_removal_semantics.2.2 w8 5 (strToLine "t")⟩
